import Mathlib

/-!
Verification development for the LivePortrait serverless adapter
(`src/handler.py`).  The handler stages input media (download a URL or
decode an inline base64 payload), builds a fixed seven-node ComfyUI
workflow, submits it over HTTP, polls a history endpoint until the
prompt id appears or 300 seconds elapse, then returns the newest output
video base64-encoded.

The embedding is shallow: machine effects (network, clock, output
directory) are supplied by an explicit `Env` record; the file system is
a partial map from paths to byte lists; exceptions are `Except String`;
Python floats that are only ever passed through verbatim are modelled
as rationals; wall-clock time advances by the 2-second sleep of the
poll loop.  Each handler run also produces a trace of externally
visible effects so that ordering properties can be stated.
-/

namespace LP

/-! ## Base64 (model of Python `base64.b64encode` / `b64decode`) -/

/-- Character of the standard base64 alphabet at index `n < 64`. -/
def encChar (n : Nat) : Char :=
  if n < 26 then Char.ofNat (65 + n)
  else if n < 52 then Char.ofNat (97 + (n - 26))
  else if n < 62 then Char.ofNat (48 + (n - 52))
  else if n = 62 then '+'
  else '/'

/-- Index of a character in the base64 alphabet; `64` when absent. -/
def decChar (c : Char) : Nat :=
  if 'A' ≤ c ∧ c ≤ 'Z' then c.toNat - 65
  else if 'a' ≤ c ∧ c ≤ 'z' then c.toNat - 97 + 26
  else if '0' ≤ c ∧ c ≤ '9' then c.toNat - 48 + 52
  else if c = '+' then 62
  else if c = '/' then 63
  else 64

/-- `base64.b64encode`: bytes to base64 characters, `=`-padded. -/
def b64encodeBytes : List Nat → List Char
  | a :: b :: c :: rest =>
      encChar (a / 4) :: encChar (a % 4 * 16 + b / 16) ::
      encChar (b % 16 * 4 + c / 64) :: encChar (c % 64) :: b64encodeBytes rest
  | [a, b] =>
      [encChar (a / 4), encChar (a % 4 * 16 + b / 16), encChar (b % 16 * 4), '=']
  | [a] =>
      [encChar (a / 4), encChar (a % 4 * 16), '=', '=']
  | [] => []

/-- Decoding of a filtered base64 character stream in blocks of four,
with the `=`-padding rules; malformed input is an error, as
`binascii.Error` is for `base64.b64decode`. -/
def b64chunkDecode : List Char → Except String (List Nat)
  | [] => .ok []
  | c0 :: c1 :: c2 :: c3 :: rest =>
      if decChar c0 < 64 ∧ decChar c1 < 64 then
        if c2 = '=' then
          if c3 = '=' ∧ rest.isEmpty then
            .ok [decChar c0 * 4 + decChar c1 / 16]
          else .error "Invalid base64-encoded string"
        else if decChar c2 < 64 then
          if c3 = '=' then
            if rest.isEmpty then
              .ok [decChar c0 * 4 + decChar c1 / 16,
                   decChar c1 % 16 * 16 + decChar c2 / 4]
            else .error "Invalid base64-encoded string"
          else if decChar c3 < 64 then
            match b64chunkDecode rest with
            | .ok bs =>
                .ok ((decChar c0 * 4 + decChar c1 / 16) ::
                     (decChar c1 % 16 * 16 + decChar c2 / 4) ::
                     (decChar c2 % 4 * 64 + decChar c3) :: bs)
            | .error e => .error e
          else .error "Invalid base64-encoded string"
        else .error "Invalid base64-encoded string"
      else .error "Invalid base64-encoded string"
  | _ => .error "Invalid base64-encoded string"

/-- Characters `b64decode` keeps before decoding (alphabet and `=`);
all others are discarded by the non-validating decoder. -/
def b64keep (c : Char) : Bool :=
  if decChar c < 64 then true else c == '='

/-- Model of `base64.b64decode` (default non-validating mode). -/
def b64decodePy (s : List Char) : Except String (List Nat) :=
  b64chunkDecode (s.filter b64keep)

/-- Pack a character list back into a `String`. -/
def listToStr (cs : List Char) : String := String.mk cs

/-! ## String and file-system helpers -/

/-- `str.startswith` (kernel-reducible list form). -/
def sStartsWith (s pre : String) : Bool := pre.toList.isPrefixOf s.toList

/-- `str.endswith` (kernel-reducible list form). -/
def sEndsWith (s suf : String) : Bool := suf.toList.isSuffixOf s.toList

/-- `c in str` for a single character. -/
def sContains (s : String) (c : Char) : Bool := s.toList.contains c

/-- `str.lower` for the ASCII strings the handler deals in. -/
def sToLower (s : String) : String := listToStr (s.toList.map Char.toLower)

/-- `str.split(sep, 1)`: at most one split, at the first separator. -/
def pySplit1 (sep : Char) (s : String) : List String :=
  if sContains s sep then
    [listToStr (s.toList.takeWhile (fun c => c != sep)),
     listToStr ((s.toList.dropWhile (fun c => c != sep)).drop 1)]
  else [s]

/-- `os.path.basename`: the part after the last slash. -/
def basename (p : String) : String :=
  listToStr (p.toList.foldl (fun acc c => if c = '/' then [] else acc ++ [c]) [])

/-- `os.path.join` for the shapes used here (dir without trailing slash). -/
def pathJoin (a b : String) : String :=
  if sStartsWith b "/" then b else a ++ "/" ++ b

/-- The staged-file view of the local disk: path to byte content. -/
def FS : Type := String → Option (List Nat)

/-- Writing a file: `open(path, 'wb'); f.write(bytes)`. -/
def writeFS (fs : FS) (p : String) (b : List Nat) : FS :=
  fun q => if q = p then some b else fs q

def COMFYUI_DIR : String := "/content/ComfyUI"
def INPUT_DIR : String := pathJoin COMFYUI_DIR "input"
def OUTPUT_DIR : String := pathJoin COMFYUI_DIR "output"

/-! ## The three staged-file helpers of `handler.py` -/

/-- `save_base64_file`: strip a data-URI head at the first comma, decode
the remaining base64 and write the decoded bytes; returns the path. -/
def save_base64_file (data : String) (output_path : String) (fs : FS) :
    Except String (FS × String) :=
  let data2 := if sContains data ',' then (pySplit1 ',' data).getD 1 "" else data
  match b64decodePy data2.toList with
  | .ok bs => .ok (writeFS fs output_path bs, output_path)
  | .error e => .error e

/-- Bytes of a file re-encoded as a base64 string (`file_to_base64` core). -/
def file_to_base64_bytes (bs : List Nat) : String := listToStr (b64encodeBytes bs)

/-- `file_to_base64`: read a file and return its base64 encoding. -/
def file_to_base64 (file_path : String) (fs : FS) : Except String String :=
  match fs file_path with
  | some bs => .ok (file_to_base64_bytes bs)
  | none => .error ("No such file: " ++ file_path)

/-! ## The workflow template (`get_liveportrait_workflow`) -/

/-- JSON-like values making up the submitted workflow.  Python floats
appear only as literals passed through verbatim, so they are carried
as rationals. -/
inductive JVal where
  | s (v : String)
  | n (v : ℚ)
  | b (v : Bool)
  | arr (vs : List JVal)
  | obj (fields : List (String × JVal))

/-- The keyword arguments `get_liveportrait_workflow` can receive
(`none` models an absent key in `**kwargs`). -/
structure Kwargs where
  flag_relative : Option Bool
  flag_do_crop : Option Bool
  flag_pasteback : Option Bool
  driving_smooth : Option Bool
  driving_multiplier : Option ℚ
  relative_motion_mode : Option String

/-- `Kwargs` with every key absent. -/
def noKwargs : Kwargs := ⟨none, none, none, none, none, none⟩

/-- The seven-node ComfyUI workflow of `get_liveportrait_workflow`,
transcribed literally; `kwargs.get(k, default)` is `(… ).getD default`.
The `audio_path` parameter exists in the source and is unused there too. -/
def get_liveportrait_workflow (source_image_path driving_video_path : String)
    (audio_path : Option String) (kwargs : Kwargs) : JVal :=
  .obj [
    ("1", .obj [("class_type", .s "DownloadAndLoadLivePortraitModels"),
                ("inputs", .obj [("precision", .s "auto"), ("mode", .s "human")])]),
    ("2", .obj [("class_type", .s "LivePortraitLoadCropper"),
                ("inputs", .obj [("onnx_device", .s "CUDA"),
                                 ("keep_model_loaded", .b true),
                                 ("detection_threshold", .n 0.5)])]),
    ("3", .obj [("class_type", .s "LoadImage"),
                ("inputs", .obj [("image", .s (basename source_image_path))])]),
    ("4", .obj [("class_type", .s "VHS_LoadVideo"),
                ("inputs", .obj [("video", .s (basename driving_video_path)),
                                 ("force_rate", .n 0),
                                 ("custom_width", .n 0),
                                 ("custom_height", .n 0),
                                 ("frame_load_cap", .n 0),
                                 ("skip_first_frames", .n 0),
                                 ("select_every_nth", .n 1)])]),
    ("5", .obj [("class_type", .s "LivePortraitCropper"),
                ("inputs", .obj [("pipeline", .arr [.s "1", .n 0]),
                                 ("cropper", .arr [.s "2", .n 0]),
                                 ("source_image", .arr [.s "3", .n 0]),
                                 ("dsize", .n 512),
                                 ("scale", .n 2.3),
                                 ("vx_ratio", .n 0.0),
                                 ("vy_ratio", .n (-0.125)),
                                 ("face_index", .n 0),
                                 ("face_index_order", .s "large-small"),
                                 ("rotate", .b true)])]),
    ("6", .obj [("class_type", .s "LivePortraitProcess"),
                ("inputs", .obj [("pipeline", .arr [.s "1", .n 0]),
                                 ("crop_info", .arr [.s "5", .n 1]),
                                 ("source_image", .arr [.s "3", .n 0]),
                                 ("driving_images", .arr [.s "4", .n 0]),
                                 ("lip_zero", .b false),
                                 ("lip_zero_threshold", .n 0.03),
                                 ("stitching", .b true),
                                 ("delta_multiplier", .n (kwargs.driving_multiplier.getD 1)),
                                 ("mismatch_method", .s "constant"),
                                 ("relative_motion_mode",
                                  .s (kwargs.relative_motion_mode.getD "relative")),
                                 ("driving_smooth_observation_variance", .n 0.000003),
                                 ("expression_friendly", .b false),
                                 ("expression_friendly_multiplier", .n 1.0)])]),
    ("7", .obj [("class_type", .s "VHS_VideoCombine"),
                ("inputs", .obj [("images", .arr [.s "6", .n 0]),
                                 ("frame_rate", .n 25),
                                 ("loop_count", .n 0),
                                 ("filename_prefix", .s "liveportrait_output"),
                                 ("format", .s "video/h264-mp4"),
                                 ("pingpong", .b false),
                                 ("save_output", .b true)])])]

/-! ## The environment: network, clock and output directory -/

/-- Response to `POST /prompt` (status code, text, parsed prompt id). -/
structure SubmitResp where
  status : Nat
  text : String
  prompt_id : Option String

/-- Response to `GET /history/{id}` at a given elapsed time. -/
structure HistResp where
  status : Nat
  entries : List (String × JVal)

/-- A file of the output directory: name, `os.path.getctime` value,
`st_mtime` value (the code never reads it), content bytes. -/
structure OutFile where
  name : String
  ctime : Int
  mtime : Int
  bytes : List Nat
deriving DecidableEq

/-- External world: URL fetches, the ComfyUI endpoint, and the state of
the output directory when the handler lists it. -/
structure Env where
  download : String → String → Except String (List Nat)
  submit : JVal → SubmitResp
  history : String → Nat → HistResp
  outputListing : List OutFile

/-- Externally visible actions of one handler run, in order. -/
inductive Effect where
  | download (url path : String)
  | saveB64 (path : String)
  | submit (workflow : JVal)
  | poll (t : Nat)
  | readOutput

/-! ## Submission and polling (`run_comfyui_workflow`) -/

/-- The poll loop: `while time.time() - start < 300`, `GET history`,
return the entry as soon as the id is a key of a 200 response,
`sleep(2)` otherwise.  `elapsed` is the wall-clock seconds consumed by
the sleeps. -/
def pollLoopT (env : Env) (pid : String) (elapsed : Nat) :
    Except String JVal × List Effect :=
  if elapsed < 300 then
    let resp := env.history pid elapsed
    if resp.status = 200 then
      match List.lookup pid resp.entries with
      | some v => (.ok v, [.poll elapsed])
      | none =>
          let r := pollLoopT env pid (elapsed + 2)
          (r.1, .poll elapsed :: r.2)
    else
      let r := pollLoopT env pid (elapsed + 2)
      (r.1, .poll elapsed :: r.2)
  else (.error "Workflow execution timed out", [])
termination_by 300 - elapsed

/-- `run_comfyui_workflow` with its effect trace: queue the prompt,
fail on a non-200 status or a missing/empty prompt id, then poll. -/
def run_comfyui_workflowT (workflow : JVal) (env : Env) :
    Except String JVal × List Effect :=
  let resp := env.submit workflow
  if resp.status ≠ 200 then
    (.error ("Failed to queue prompt: " ++ resp.text), [.submit workflow])
  else
    match resp.prompt_id with
    | none => (.error ("No prompt_id in response: " ++ resp.text), [.submit workflow])
    | some pid =>
        if pid = "" then
          (.error ("No prompt_id in response: " ++ resp.text), [.submit workflow])
        else
          let r := pollLoopT env pid 0
          (r.1, .submit workflow :: r.2)

/-! ## Output-directory search (handler lines 291-317) -/

/-- `glob("liveportrait_output*.mp4")` on a file name: the name is the
literal head, then anything, then `.mp4` (19 + 4 characters at least). -/
def matchLPmp4 (name : String) : Bool :=
  sStartsWith name "liveportrait_output" && sEndsWith name ".mp4" &&
    decide (23 ≤ name.toList.length)

/-- `pathlib.Path.glob("*.mp4")`: ends in `.mp4`.  Unlike the `glob`
module, `pathlib`'s glob matches dot-files (so `.hidden.mp4` and even
`.mp4` match this pattern). -/
def matchAnyMp4 (name : String) : Bool := sEndsWith name ".mp4"

/-- `pathlib.Path.glob("*.*")`: contains a dot (dot-files included). -/
def matchStarDot (name : String) : Bool := sContains name '.'

/-- `pathlib.Path.glob("*")` (the debug listing): every entry of the
directory, dot-files included. -/
def globStar (name : String) : Bool := true

/-- `pathlib.PurePath.suffix`: from the last dot, provided that dot is
neither the first nor the last character of the name. -/
def pySuffix (s : String) : String :=
  let cs := s.toList
  match cs.reverse.findIdx? (fun c => c == '.') with
  | none => ""
  | some k =>
      let i := cs.length - 1 - k
      if 0 < i ∧ i + 1 < cs.length then listToStr (cs.drop i) else ""

/-- The suffix whitelist of the third search tier. -/
def videoExts : List String := [".mp4", ".webm", ".avi", ".mov"]

/-- Python `max(files, key=f)` over numeric keys: the first element
attaining the maximum (later elements win only when strictly greater). -/
def pyMax (key : OutFile → Int) : List OutFile → Option OutFile
  | [] => none
  | x :: xs => some (xs.foldl (fun m y => if key y > key m then y else m) x)

/-- The prioritized search of the output directory followed by
`max(output_files, key=os.path.getctime)`, as the handler performs it. -/
def selectOutputFile (listing : List OutFile) : Option OutFile :=
  let files1 := listing.filter (fun f => matchLPmp4 f.name)
  let files2 := if files1.isEmpty then listing.filter (fun f => matchAnyMp4 f.name) else files1
  let files3 :=
    if files2.isEmpty then
      (listing.filter (fun f => matchStarDot f.name)).filter
        (fun f => videoExts.contains (sToLower (pySuffix f.name)))
    else files2
  pyMax (fun f => f.ctime) files3

/-- Python `repr` of a list of strings, as interpolated into the
no-output error message. -/
def pyReprStrList : List String → String
  | [] => "[]"
  | x :: xs =>
      "[" ++ String.intercalate ", " ((x :: xs).map (fun s => "\x27" ++ s ++ "\x27")) ++ "]"

/-- The `No output video generated` message, listing `glob("*")`. -/
def noOutputMsg (listing : List OutFile) : String :=
  "No output video generated. Files in output dir: " ++
    pyReprStrList ((listing.filter (fun f => globStar f.name)).map
      (fun f => OUTPUT_DIR ++ "/" ++ f.name))

/-- The tail of the handler after a successful workflow run: search the
output directory, error when nothing matches, otherwise re-encode the
chosen file behind the fixed `data:video/mp4;base64,` head. -/
def finishOutput (listing : List OutFile) : List (String × JVal) :=
  match selectOutputFile listing with
  | none => [("error", .s (noOutputMsg listing))]
  | some f => [("video_base64", .s ("data:video/mp4;base64," ++ file_to_base64_bytes f.bytes))]

/-! ## The handler -/

/-- The keys of `event["input"]` that the handler ever reads (plus
`relative_motion_mode`, which a request may carry but the handler never
reads).  `none` models an absent key. -/
structure JobInput where
  source_image : Option String
  source_image_url : Option String
  driving_video : Option String
  driving_video_url : Option String
  audio : Option String
  audio_url : Option String
  flag_relative : Option Bool
  flag_do_crop : Option Bool
  flag_pasteback : Option Bool
  driving_smooth : Option Bool
  driving_multiplier : Option ℚ
  relative_motion_mode : Option String
deriving DecidableEq

/-- A `JobInput` with every key absent. -/
def emptyJob : JobInput :=
  ⟨none, none, none, none, none, none, none, none, none, none, none, none⟩

/-- The request event; `input` may be absent (`event.get("input", {})`). -/
structure Event where
  input : Option JobInput

/-- `event.get("input", {})`. -/
def jobOf (event : Event) : JobInput := event.input.getD emptyJob

/-- Python `a or b` on optional strings: an empty string is falsy. -/
def pyOr (a b : Option String) : Option String :=
  match a with
  | some s => if s = "" then b else some s
  | none => b

/-- `job_input.get(k) or job_input.get(k_url)` followed by the
`if not value` test: `none` exactly when the handler would reject. -/
def getMedia (a b : Option String) : Option String :=
  match pyOr a b with
  | some s => if s = "" then none else some s
  | none => none

/-- The keyword arguments the handler passes to
`get_liveportrait_workflow`: four flags and `driving_multiplier`, each
defaulted at the call site; `relative_motion_mode` is never passed. -/
def kwargsOf (job : JobInput) : Kwargs :=
  ⟨some (job.flag_relative.getD true),
   some (job.flag_do_crop.getD true),
   some (job.flag_pasteback.getD true),
   some (job.driving_smooth.getD true),
   some (job.driving_multiplier.getD 1),
   none⟩

def sourcePath : String := pathJoin INPUT_DIR "source.png"
def drivingPath : String := pathJoin INPUT_DIR "driving.mp4"
def audioPathC : String := pathJoin INPUT_DIR "audio.wav"

/-- One staging step: `download_file` when the value starts with
`http`, otherwise `save_base64_file`; either way the staged bytes land
at the fixed local path. -/
def stage (value path : String) (env : Env) (fs : FS) :
    Except String FS × List Effect :=
  if sStartsWith value "http" then
    match env.download value path with
    | .ok bs => (.ok (writeFS fs path bs), [.download value path])
    | .error e => (.error e, [.download value path])
  else
    match save_base64_file value path fs with
    | .ok (fs2, _) => (.ok fs2, [.saveB64 path])
    | .error e => (.error e, [.saveB64 path])

/-- The workflow the handler builds for a given request. -/
def workflowOfInput (job : JobInput) (audio_path : Option String) : JVal :=
  get_liveportrait_workflow sourcePath drivingPath audio_path (kwargsOf job)

/-- Handler tail after staging: build the workflow, run it, then decode
the output directory; exceptions become `error` dictionaries. -/
def afterStaging (job : JobInput) (env : Env) (tr : List Effect)
    (audio_path : Option String) : List (String × JVal) × List Effect :=
  let workflow := workflowOfInput job audio_path
  let r := run_comfyui_workflowT workflow env
  match r.1 with
  | .error e => ([("error", .s e)], tr ++ r.2)
  | .ok _ => (finishOutput env.outputListing, tr ++ r.2 ++ [.readOutput])

/-- The handler with its effect trace.  Early `return {"error": …}`
dictionaries and caught exceptions are both plain returns here; the
Python `try`/`except` wrapper is the `.error e ↦ [("error", …)]` arms. -/
def handlerT (event : Event) (env : Env) (fs : FS) :
    List (String × JVal) × List Effect :=
  let job := jobOf event
  match getMedia job.source_image job.source_image_url with
  | none => ([("error", .s "source_image or source_image_url is required")], [])
  | some source_image =>
    let r1 := stage source_image sourcePath env fs
    match r1.1 with
    | .error e => ([("error", .s e)], r1.2)
    | .ok fs1 =>
      match getMedia job.driving_video job.driving_video_url with
      | none =>
          ([("error", .s "driving_video or driving_video_url is required")], r1.2)
      | some driving_video =>
        let r2 := stage driving_video drivingPath env fs1
        match r2.1 with
        | .error e => ([("error", .s e)], r1.2 ++ r2.2)
        | .ok fs2 =>
          match getMedia job.audio job.audio_url with
          | none => afterStaging job env (r1.2 ++ r2.2) none
          | some audio =>
            let r3 := stage audio audioPathC env fs2
            match r3.1 with
            | .error e => ([("error", .s e)], r1.2 ++ r2.2 ++ r3.2)
            | .ok _ => afterStaging job env (r1.2 ++ r2.2 ++ r3.2) (some audioPathC)

/-- The dictionary the handler returns. -/
def handler (event : Event) (env : Env) (fs : FS) : List (String × JVal) :=
  (handlerT event env fs).1

/-! ## Spec-side observables -/

/-- Spec wording of the payload head strip: everything up to and
including the first comma is removed; no comma, no change. -/
def afterFirstComma (s : String) : String :=
  if sContains s ',' then listToStr ((s.toList.dropWhile (fun c => c != ',')).drop 1)
  else s

/-- A poll at elapsed time `t` finds the id: 200 status and the id is a
key of the history dictionary. -/
def hitAt (env : Env) (pid : String) (t : Nat) : Bool :=
  (env.history pid t).status == 200 && (List.lookup pid (env.history pid t).entries).isSome

/-- The history entry a successful poll at time `t` returns. -/
def resultAt (env : Env) (pid : String) (t : Nat) : JVal :=
  (List.lookup pid (env.history pid t).entries).getD (.obj [])

/-- Pipeline stage of an effect: staging 0, submission 1, polling 2,
output decoding 3. -/
def kindIdx : Effect → Nat
  | .download _ _ => 0
  | .saveB64 _ => 0
  | .submit _ => 1
  | .poll _ => 2
  | .readOutput => 3

/-- Whether an effect is the engine submission. -/
def isSubmit : Effect → Bool
  | .submit _ => true
  | _ => false

/-- Key lookup in an object value. -/
def jvalLookup (v : JVal) (k : String) : Option JVal :=
  match v with
  | .obj fields => List.lookup k fields
  | _ => none

/-- The `relative_motion_mode` parameter of workflow node 6. -/
def node6rmm (wf : JVal) : Option JVal :=
  (jvalLookup wf "6").bind fun x =>
    (jvalLookup x "inputs").bind fun y => jvalLookup y "relative_motion_mode"

/-- The prioritized match set exactly as the claim words it: first the
`liveportrait_output*.mp4` files; only if none, any `*.mp4` file; only
if that too is empty, the whitelisted-suffix files. -/
def claimMatches (listing : List OutFile) : List OutFile :=
  let m1 := listing.filter (fun f => matchLPmp4 f.name)
  if !m1.isEmpty then m1
  else
    let m2 := listing.filter (fun f => matchAnyMp4 f.name)
    if !m2.isEmpty then m2
    else
      listing.filter
        (fun f => matchStarDot f.name && videoExts.contains (sToLower (pySuffix f.name)))

/-- Newest of a match set by change time (`os.path.getctime`). -/
def newestByCtime (l : List OutFile) : Option OutFile := pyMax (fun f => f.ctime) l

/-- Newest of a match set by modification time, as the claim says. -/
def newestByMtime (l : List OutFile) : Option OutFile := pyMax (fun f => f.mtime) l

/-- The claim's selection read with change time. -/
def selectSpecCtime (listing : List OutFile) : Option OutFile :=
  newestByCtime (claimMatches listing)

/-- The claim's selection read literally (modification time). -/
def selectSpecMtime (listing : List OutFile) : Option OutFile :=
  newestByMtime (claimMatches listing)

/-- The template the handler always submits: the workflow graph as a
function of the sole request-derived parameter, `driving_multiplier`;
file names are the basenames of the fixed staging paths and
`relative_motion_mode` is pinned to `relative`. -/
def liveportraitTemplate (m : ℚ) : JVal :=
  .obj [
    ("1", .obj [("class_type", .s "DownloadAndLoadLivePortraitModels"),
                ("inputs", .obj [("precision", .s "auto"), ("mode", .s "human")])]),
    ("2", .obj [("class_type", .s "LivePortraitLoadCropper"),
                ("inputs", .obj [("onnx_device", .s "CUDA"),
                                 ("keep_model_loaded", .b true),
                                 ("detection_threshold", .n 0.5)])]),
    ("3", .obj [("class_type", .s "LoadImage"),
                ("inputs", .obj [("image", .s "source.png")])]),
    ("4", .obj [("class_type", .s "VHS_LoadVideo"),
                ("inputs", .obj [("video", .s "driving.mp4"),
                                 ("force_rate", .n 0),
                                 ("custom_width", .n 0),
                                 ("custom_height", .n 0),
                                 ("frame_load_cap", .n 0),
                                 ("skip_first_frames", .n 0),
                                 ("select_every_nth", .n 1)])]),
    ("5", .obj [("class_type", .s "LivePortraitCropper"),
                ("inputs", .obj [("pipeline", .arr [.s "1", .n 0]),
                                 ("cropper", .arr [.s "2", .n 0]),
                                 ("source_image", .arr [.s "3", .n 0]),
                                 ("dsize", .n 512),
                                 ("scale", .n 2.3),
                                 ("vx_ratio", .n 0.0),
                                 ("vy_ratio", .n (-0.125)),
                                 ("face_index", .n 0),
                                 ("face_index_order", .s "large-small"),
                                 ("rotate", .b true)])]),
    ("6", .obj [("class_type", .s "LivePortraitProcess"),
                ("inputs", .obj [("pipeline", .arr [.s "1", .n 0]),
                                 ("crop_info", .arr [.s "5", .n 1]),
                                 ("source_image", .arr [.s "3", .n 0]),
                                 ("driving_images", .arr [.s "4", .n 0]),
                                 ("lip_zero", .b false),
                                 ("lip_zero_threshold", .n 0.03),
                                 ("stitching", .b true),
                                 ("delta_multiplier", .n m),
                                 ("mismatch_method", .s "constant"),
                                 ("relative_motion_mode", .s "relative"),
                                 ("driving_smooth_observation_variance", .n 0.000003),
                                 ("expression_friendly", .b false),
                                 ("expression_friendly_multiplier", .n 1.0)])]),
    ("7", .obj [("class_type", .s "VHS_VideoCombine"),
                ("inputs", .obj [("images", .arr [.s "6", .n 0]),
                                 ("frame_rate", .n 25),
                                 ("loop_count", .n 0),
                                 ("filename_prefix", .s "liveportrait_output"),
                                 ("format", .s "video/h264-mp4"),
                                 ("pingpong", .b false),
                                 ("save_output", .b true)])])]

/-! ## Concrete fixtures for witnesses and counterexamples -/

/-- The empty file system. -/
def fs0 : FS := fun _ => none

/-- A minimal concrete environment. -/
def envEx : Env :=
  ⟨fun _ _ => Except.error "network unavailable",
   fun _ => ⟨500, "down", none⟩,
   fun _ _ => ⟨500, []⟩,
   []⟩

/-- An event with no input at all. -/
def evEmpty : Event := ⟨none⟩

/-- A request carrying only inline media (base64 of the byte `0x41`). -/
def jobInline : JobInput :=
  ⟨some "QQ==", none, some "QQ==", none, none, none,
   none, none, none, none, none, none⟩

/-- `jobInline` plus a `relative_motion_mode` override the handler
never reads. -/
def jobRMM : JobInput :=
  ⟨some "QQ==", none, some "QQ==", none, none, none,
   none, none, none, none, none, some "absolute"⟩

/-- Output file whose change time is older but whose modification time
is newer. -/
def exFileA : OutFile := ⟨"liveportrait_output1.mp4", 1, 10, []⟩

/-- Output file whose change time is newer but whose modification time
is older. -/
def exFileB : OutFile := ⟨"liveportrait_output2.mp4", 10, 1, [0]⟩

/-- The two files together: change-time and modification-time order
disagree. -/
def exListing : List OutFile := [exFileA, exFileB]

/-! # Theorems -/

/-! ## Base64 lemmas -/

lemma decChar_encChar : ∀ n, n < 64 → decChar (encChar n) = n := by decide

lemma encChar_ne_pad : ∀ n, n < 64 → encChar n ≠ '=' := by decide

lemma encChar_keep : ∀ n, n < 64 → b64keep (encChar n) = true := by decide

lemma b64keep_pad : b64keep '=' = true := by decide

lemma b64keep_comma : b64keep ',' = false := by decide

lemma b64encodeBytes_keep :
    ∀ bs : List Nat, (∀ x ∈ bs, x < 256) → ∀ c ∈ b64encodeBytes bs, b64keep c = true
  | [], _, c, hc => by simp [b64encodeBytes] at hc
  | [a], h, c, hc => by
      have ha : a < 256 := h a (by simp)
      simp only [b64encodeBytes, List.mem_cons, List.not_mem_nil, or_false] at hc
      rcases hc with rfl | rfl | rfl | rfl
      · exact encChar_keep _ (by omega)
      · exact encChar_keep _ (by omega)
      · exact b64keep_pad
      · exact b64keep_pad
  | [a, b], h, c, hc => by
      have ha : a < 256 := h a (by simp)
      have hb : b < 256 := h b (by simp)
      simp only [b64encodeBytes, List.mem_cons, List.not_mem_nil, or_false] at hc
      rcases hc with rfl | rfl | rfl | rfl
      · exact encChar_keep _ (by omega)
      · exact encChar_keep _ (by omega)
      · exact encChar_keep _ (by omega)
      · exact b64keep_pad
  | a :: b :: c :: rest, h, d, hd => by
      have ha : a < 256 := h a (by simp)
      have hb : b < 256 := h b (by simp)
      have hc : c < 256 := h c (by simp)
      simp only [b64encodeBytes, List.mem_cons] at hd
      rcases hd with rfl | rfl | rfl | rfl | hd
      · exact encChar_keep _ (by omega)
      · exact encChar_keep _ (by omega)
      · exact encChar_keep _ (by omega)
      · exact encChar_keep _ (by omega)
      · exact b64encodeBytes_keep rest (fun x hx => h x (by simp [hx])) d hd

lemma pack16div (x y : Nat) (hy : y < 16) : (x * 16 + y) / 16 = x := by omega

lemma pack16mod (x y : Nat) (hy : y < 16) : (x * 16 + y) % 16 = y := by omega

lemma pack4div (x y : Nat) (hy : y < 4) : (x * 4 + y) / 4 = x := by omega

lemma pack4mod (x y : Nat) (hy : y < 4) : (x * 4 + y) % 4 = y := by omega

lemma mul16div (x : Nat) : x * 16 / 16 = x := by omega

lemma mul4div (x : Nat) : x * 4 / 4 = x := by omega

lemma b64chunkDecode_encode :
    ∀ bs : List Nat, (∀ x ∈ bs, x < 256) → b64chunkDecode (b64encodeBytes bs) = .ok bs
  | [], _ => by simp [b64encodeBytes, b64chunkDecode]
  | [a], h => by
      have ha : a < 256 := h a (by simp)
      have h0 : a / 4 < 64 := by omega
      have h1 : a % 4 * 16 < 64 := by omega
      simp only [b64encodeBytes, b64chunkDecode, decChar_encChar _ h0, decChar_encChar _ h1,
        List.isEmpty_nil, and_true, if_pos (And.intro h0 h1), if_pos rfl, and_self, ite_true]
      rw [mul16div]
      have e1 : a / 4 * 4 + a % 4 = a := by omega
      rw [e1]
  | [a, b], h => by
      have ha : a < 256 := h a (by simp)
      have hb : b < 256 := h b (by simp)
      have h0 : a / 4 < 64 := by omega
      have h1 : a % 4 * 16 + b / 16 < 64 := by omega
      have h2 : b % 16 * 4 < 64 := by omega
      simp only [b64encodeBytes, b64chunkDecode, decChar_encChar _ h0, decChar_encChar _ h1,
        decChar_encChar _ h2, List.isEmpty_nil,
        if_pos (And.intro h0 h1), if_neg (encChar_ne_pad _ h2)]
      simp only [if_pos h2, if_pos rfl, List.isEmpty_nil, ite_true]
      rw [pack16div (a % 4) (b / 16) (by omega), pack16mod (a % 4) (b / 16) (by omega),
        mul4div]
      have e1 : a / 4 * 4 + a % 4 = a := by omega
      have e2 : b / 16 * 16 + b % 16 = b := by omega
      rw [e1, e2]
  | a :: b :: c :: rest, h => by
      have ha : a < 256 := h a (by simp)
      have hb : b < 256 := h b (by simp)
      have hc : c < 256 := h c (by simp)
      have ih := b64chunkDecode_encode rest (fun x hx => h x (by simp [hx]))
      have h0 : a / 4 < 64 := by omega
      have h1 : a % 4 * 16 + b / 16 < 64 := by omega
      have h2 : b % 16 * 4 + c / 64 < 64 := by omega
      have h3 : c % 64 < 64 := by omega
      simp only [b64encodeBytes, b64chunkDecode, decChar_encChar _ h0, decChar_encChar _ h1,
        decChar_encChar _ h2, decChar_encChar _ h3,
        if_pos (And.intro h0 h1), if_neg (encChar_ne_pad _ h2), if_neg (encChar_ne_pad _ h3),
        if_pos h2, if_pos h3, ih]
      rw [pack16div (a % 4) (b / 16) (by omega), pack16mod (a % 4) (b / 16) (by omega),
        pack4div (b % 16) (c / 64) (by omega), pack4mod (b % 16) (c / 64) (by omega)]
      have e1 : a / 4 * 4 + a % 4 = a := by omega
      have e2 : b / 16 * 16 + b % 16 = b := by omega
      have e3 : c / 64 * 64 + c % 64 = c := by omega
      rw [e1, e2, e3]

lemma b64decodePy_encode (bs : List Nat) (h : ∀ x ∈ bs, x < 256) :
    b64decodePy (b64encodeBytes bs) = .ok bs := by
  unfold b64decodePy
  rw [List.filter_eq_self.mpr (b64encodeBytes_keep bs h), b64chunkDecode_encode bs h]

lemma b64encodeBytes_no_comma (bs : List Nat) (h : ∀ x ∈ bs, x < 256) :
    ',' ∉ b64encodeBytes bs := by
  intro hmem
  have hk := b64encodeBytes_keep bs h ',' hmem
  rw [b64keep_comma] at hk
  exact Bool.false_ne_true hk

/-! ## C10: save / re-read round trip -/

/-- C10: for every byte sequence `b`, its base64 encoding is comma-free,
`save_base64_file` on that encoding writes exactly `b` to the file and
returns its path argument, and `file_to_base64` on the written file
returns exactly the original base64 string. -/
theorem C10_save_read_roundtrip (b : List Nat) (path : String) (fs : FS)
    (h : ∀ x ∈ b, x < 256) :
    sContains (file_to_base64_bytes b) ',' = false ∧
    save_base64_file (file_to_base64_bytes b) path fs =
      .ok (writeFS fs path b, path) ∧
    file_to_base64 path (writeFS fs path b) = .ok (file_to_base64_bytes b) := by
  have hnc : sContains (file_to_base64_bytes b) ',' = false := by
    have := b64encodeBytes_no_comma b h
    simpa [sContains, file_to_base64_bytes, listToStr] using this
  refine ⟨hnc, ?_, ?_⟩
  · unfold save_base64_file
    rw [hnc]
    have htl : (file_to_base64_bytes b).toList = b64encodeBytes b := rfl
    simp only [Bool.false_eq_true, if_false, htl, b64decodePy_encode b h]
  · simp [file_to_base64, writeFS]

/-- Witness for C10 at the bytes `[1, 2, 3]`. -/
theorem C10_witness :
    (∀ x ∈ [1, 2, 3], x < 256) ∧
    (sContains (file_to_base64_bytes [1, 2, 3]) ',' = false ∧
     save_base64_file (file_to_base64_bytes [1, 2, 3]) "f" fs0 =
       .ok (writeFS fs0 "f" [1, 2, 3], "f") ∧
     file_to_base64 "f" (writeFS fs0 "f" [1, 2, 3]) =
       .ok (file_to_base64_bytes [1, 2, 3])) :=
  ⟨by decide, C10_save_read_roundtrip [1, 2, 3] "f" fs0 (by decide)⟩

/-! ## C2: URL-or-inline resolution of each media field -/

lemma split1_afterComma (s : String) :
    (if sContains s ',' then (pySplit1 ',' s).getD 1 "" else s) = afterFirstComma s := by
  unfold pySplit1 afterFirstComma
  by_cases hc : sContains s ','
  · simp [hc]
  · simp [hc]

lemma save_base64_file_eq (data path : String) (fs : FS) :
    save_base64_file data path fs =
      match b64decodePy (afterFirstComma data).toList with
      | .ok bs => .ok (writeFS fs path bs, path)
      | .error e => .error e := by
  unfold save_base64_file
  rw [split1_afterComma]

/-- C2: a media value starting with `http` is resolved by downloading
that URL to the given local path; any other value is treated as inline
base64, everything up to and including the first comma is stripped, and
exactly the decoded bytes are written to the local path (decode errors
propagate as exceptions). -/
theorem C2_stage_resolution (value path : String) (env : Env) (fs : FS) :
    (sStartsWith value "http" = true →
      (∀ bs, env.download value path = .ok bs →
        stage value path env fs = (.ok (writeFS fs path bs), [.download value path])) ∧
      (∀ e, env.download value path = .error e →
        stage value path env fs = (.error e, [.download value path]))) ∧
    (sStartsWith value "http" = false →
      (∀ bs, b64decodePy (afterFirstComma value).toList = .ok bs →
        stage value path env fs = (.ok (writeFS fs path bs), [.saveB64 path])) ∧
      (∀ e, b64decodePy (afterFirstComma value).toList = .error e →
        stage value path env fs = (.error e, [.saveB64 path]))) := by
  constructor
  · intro hh
    constructor
    · intro bs hd
      unfold stage
      rw [hh]
      simp [hd]
    · intro e hd
      unfold stage
      rw [hh]
      simp [hd]
  · intro hh
    constructor
    · intro bs hd
      unfold stage
      rw [hh]
      simp only [Bool.false_eq_true, if_false, save_base64_file_eq, hd]
    · intro e hd
      unfold stage
      rw [hh]
      simp only [Bool.false_eq_true, if_false, save_base64_file_eq, hd]

/-- Witness for C2: an inline data-URI payload is comma-stripped,
decoded, and written to the fixed source path. -/
theorem C2_witness :
    sStartsWith "data:image/png;base64,QQ==" "http" = false ∧
    stage "data:image/png;base64,QQ==" sourcePath envEx fs0 =
      (.ok (writeFS fs0 sourcePath [65]), [Effect.saveB64 sourcePath]) :=
  ⟨by decide,
   ((C2_stage_resolution "data:image/png;base64,QQ==" sourcePath envEx fs0).2
      (by decide)).1 [65] rfl⟩

/-! ## C3: the poll loop exits by first hit or by timeout -/

lemma pollLoopT_timeout (env : Env) (pid : String) :
    ∀ k j : Nat, 150 ≤ j + k →
      (∀ n, j ≤ n → n * 2 < 300 → hitAt env pid (n * 2) = false) →
      (pollLoopT env pid (j * 2)).1 = .error "Workflow execution timed out" := by
  intro k
  induction k with
  | zero =>
      intro j hj _
      rw [pollLoopT]
      have hlt : ¬ j * 2 < 300 := by omega
      simp [hlt]
  | succ k ih =>
      intro j hj hno
      by_cases hlt : j * 2 < 300
      · have hh := hno j (le_refl j) hlt
        unfold hitAt at hh
        rw [pollLoopT]
        have hrec : j * 2 + 2 = (j + 1) * 2 := by ring
        by_cases hs : (env.history pid (j * 2)).status = 200
        · have hl : List.lookup pid (env.history pid (j * 2)).entries = none := by
            cases hcase : List.lookup pid (env.history pid (j * 2)).entries with
            | none => rfl
            | some v => simp [hs, hcase] at hh
          simp only [if_pos hlt, hs, if_pos rfl, hl]
          rw [hrec]
          exact ih (j + 1) (by omega) (fun n hn h300 => hno n (by omega) h300)
        · simp only [if_pos hlt, if_neg hs]
          rw [hrec]
          exact ih (j + 1) (by omega) (fun n hn h300 => hno n (by omega) h300)
      · rw [pollLoopT]
        simp [hlt]

lemma pollLoopT_first_hit (env : Env) (pid : String) :
    ∀ k j n : Nat, 150 ≤ j + k → j ≤ n → n * 2 < 300 →
      hitAt env pid (n * 2) = true →
      (∀ m, j ≤ m → m < n → hitAt env pid (m * 2) = false) →
      (pollLoopT env pid (j * 2)).1 = .ok (resultAt env pid (n * 2)) := by
  intro k
  induction k with
  | zero =>
      intro j n hj hjn h300 _ _
      omega
  | succ k ih =>
      intro j n hj hjn h300 hhit hmiss
      by_cases hje : j = n
      · subst hje
        unfold hitAt at hhit
        rw [pollLoopT]
        have hs : (env.history pid (j * 2)).status = 200 := by
          by_contra hs
          simp [hs] at hhit
        obtain ⟨v, hv⟩ : ∃ v, List.lookup pid (env.history pid (j * 2)).entries = some v := by
          cases hcase : List.lookup pid (env.history pid (j * 2)).entries with
          | none => simp [hcase] at hhit
          | some v => exact ⟨v, rfl⟩
        have hlt : j * 2 < 300 := h300
        simp only [if_pos hlt, hs, if_pos rfl, hv]
        simp [resultAt, hv]
      · have hjn2 : j < n := by omega
        have hh := hmiss j (le_refl j) hjn2
        unfold hitAt at hh
        have hlt : j * 2 < 300 := by omega
        rw [pollLoopT]
        have hrec : j * 2 + 2 = (j + 1) * 2 := by ring
        by_cases hs : (env.history pid (j * 2)).status = 200
        · have hl : List.lookup pid (env.history pid (j * 2)).entries = none := by
            cases hcase : List.lookup pid (env.history pid (j * 2)).entries with
            | none => rfl
            | some v => simp [hs, hcase] at hh
          simp only [if_pos hlt, hs, if_pos rfl, hl]
          rw [hrec]
          exact ih (j + 1) n (by omega) (by omega) h300 hhit
            (fun m hm hmn => hmiss m (by omega) hmn)
        · simp only [if_pos hlt, if_neg hs]
          rw [hrec]
          exact ih (j + 1) n (by omega) (by omega) h300 hhit
            (fun m hm hmn => hmiss m (by omega) hmn)

/-- C3: started at elapsed time 0, the poll loop (2-second steps, 300
second deadline) ends in exactly one of two ways: if some poll within
the deadline finds the id (and it is the first to do so) the loop
returns that history entry; if no poll within the deadline finds the
id, it fails with the timeout error. -/
theorem C3_poll_two_exits (env : Env) (pid : String) :
    ((∀ n, n * 2 < 300 → hitAt env pid (n * 2) = false) →
      (pollLoopT env pid 0).1 = .error "Workflow execution timed out") ∧
    (∀ n, n * 2 < 300 → hitAt env pid (n * 2) = true →
      (∀ m, m < n → hitAt env pid (m * 2) = false) →
      (pollLoopT env pid 0).1 = .ok (resultAt env pid (n * 2))) := by
  constructor
  · intro hno
    have := pollLoopT_timeout env pid 150 0 (by omega) (fun n _ h300 => hno n h300)
    simpa using this
  · intro n h300 hhit hmiss
    have := pollLoopT_first_hit env pid 150 0 n (by omega) (by omega) h300 hhit
      (fun m _ hmn => hmiss m hmn)
    simpa using this

/-- Witness for C3: in an environment whose history endpoint always
answers 500, the loop times out. -/
theorem C3_witness :
    (pollLoopT envEx "p" 0).1 = .error "Workflow execution timed out" :=
  (C3_poll_two_exits envEx "p").1 (fun _ _ => rfl)

/-! ## The submitted workflow: C4 and C9 -/

lemma workflowOfInput_eq_template (job : JobInput) (audio_path : Option String) :
    workflowOfInput job audio_path =
      liveportraitTemplate (job.driving_multiplier.getD 1) := rfl

lemma stage_no_submit (v p : String) (env : Env) (fs : FS) (w : JVal) :
    Effect.submit w ∉ (stage v p env fs).2 := by
  unfold stage
  split
  · split <;> simp
  · split <;> simp

lemma pollLoopT_only_polls (env : Env) (pid : String) :
    forall k t, 300 <= t + k -> forall e, e ∈ (pollLoopT env pid t).2 -> ∃ u, e = Effect.poll u := by
  intro k
  induction k with
  | zero =>
      intro t ht e he
      rw [pollLoopT] at he
      have hlt : ¬ t < 300 := by omega
      simp [hlt] at he
  | succ k ih =>
      intro t ht e he
      by_cases hlt : t < 300
      · rw [pollLoopT] at he
        by_cases hs : (env.history pid t).status = 200
        · cases hcase : List.lookup pid (env.history pid t).entries with
          | some v =>
              simp [hlt, hs, hcase] at he
              exact ⟨t, he⟩
          | none =>
              simp [hlt, hs, hcase] at he
              rcases he with rfl | he
              · exact ⟨t, rfl⟩
              · exact ih (t + 2) (by omega) e he
        · simp [hlt, hs] at he
          rcases he with rfl | he
          · exact ⟨t, rfl⟩
          · exact ih (t + 2) (by omega) e he
      · rw [pollLoopT] at he
        simp [hlt] at he

lemma run_submit_eq (wf : JVal) (env : Env) (w : JVal)
    (hw : Effect.submit w ∈ (run_comfyui_workflowT wf env).2) : w = wf := by
  simp only [run_comfyui_workflowT] at hw
  by_cases hs : (env.submit wf).status = 200
  · rw [if_neg (not_not_intro hs)] at hw
    cases hp : (env.submit wf).prompt_id with
    | none =>
        simpa [hp] using hw
    | some pid =>
        by_cases hpe : pid = ""
        · simpa [hp, hpe] using hw
        · simp only [hp, hpe, if_false, List.mem_cons] at hw
          cases hw with
          | inl h2 =>
              injection h2
          | inr h2 =>
              obtain ⟨u, hu⟩ := pollLoopT_only_polls env pid 300 0 (by omega) _ h2
              exact absurd hu (by simp)
  · rw [if_pos hs] at hw
    simpa using hw

lemma afterStaging_submit (job : JobInput) (env : Env) (tr : List Effect)
    (audio_path : Option String) (w : JVal)
    (htr : Effect.submit w ∉ tr)
    (hw : Effect.submit w ∈ (afterStaging job env tr audio_path).2) :
    w = workflowOfInput job audio_path := by
  simp only [afterStaging] at hw
  cases hr : (run_comfyui_workflowT (workflowOfInput job audio_path) env).1 with
  | error e =>
      rw [hr] at hw
      simp only [List.mem_append] at hw
      rcases hw with hw | hw
      · exact absurd hw htr
      · exact run_submit_eq _ env w hw
  | ok a =>
      rw [hr] at hw
      simp only [List.append_assoc, List.mem_append] at hw
      rcases hw with hw | hw | hw
      · exact absurd hw htr
      · exact run_submit_eq _ env w hw
      · simp at hw

lemma submit_mem_handlerT (ev : Event) (env : Env) (fs : FS) (w : JVal)
    (hw : Effect.submit w ∈ (handlerT ev env fs).2) :
    w = liveportraitTemplate ((jobOf ev).driving_multiplier.getD 1) := by
  rw [← workflowOfInput_eq_template (jobOf ev) none]
  simp only [handlerT] at hw
  cases hm1 : getMedia (jobOf ev).source_image (jobOf ev).source_image_url with
  | none => rw [hm1] at hw; simp at hw
  | some sv =>
  rw [hm1] at hw
  simp only [] at hw
  cases hs1 : (stage sv sourcePath env fs).1 with
  | error e => rw [hs1] at hw; simp only [] at hw; exact absurd hw (stage_no_submit _ _ env fs w)
  | ok fs1 =>
  rw [hs1] at hw
  simp only [] at hw
  cases hm2 : getMedia (jobOf ev).driving_video (jobOf ev).driving_video_url with
  | none => rw [hm2] at hw; simp only [] at hw; exact absurd hw (stage_no_submit _ _ env fs w)
  | some dv =>
  rw [hm2] at hw
  simp only [] at hw
  cases hs2 : (stage dv drivingPath env fs1).1 with
  | error e =>
      rw [hs2] at hw
      simp only [List.mem_append] at hw
      rcases hw with hw | hw
      · exact absurd hw (stage_no_submit _ _ env fs w)
      · exact absurd hw (stage_no_submit _ _ env fs1 w)
  | ok fs2 =>
  rw [hs2] at hw
  simp only [] at hw
  cases hm3 : getMedia (jobOf ev).audio (jobOf ev).audio_url with
  | none =>
      rw [hm3] at hw
      simp only [] at hw
      refine afterStaging_submit _ env _ none w ?_ hw
      rw [List.mem_append]
      push_neg
      exact ⟨stage_no_submit _ _ env fs w, stage_no_submit _ _ env fs1 w⟩
  | some au =>
  rw [hm3] at hw
  simp only [] at hw
  cases hs3 : (stage au audioPathC env fs2).1 with
  | error e =>
      rw [hs3] at hw
      simp only [List.append_assoc, List.mem_append] at hw
      rcases hw with hw | hw | hw
      · exact absurd hw (stage_no_submit _ _ env fs w)
      · exact absurd hw (stage_no_submit _ _ env fs1 w)
      · exact absurd hw (stage_no_submit _ _ env fs2 w)
  | ok fs3 =>
      rw [hs3] at hw
      simp only [] at hw
      refine afterStaging_submit _ env _ (some audioPathC) w ?_ hw
      rw [List.append_assoc, List.mem_append]
      push_neg
      refine ⟨stage_no_submit _ _ env fs w, ?_⟩
      rw [List.mem_append]
      push_neg
      exact ⟨stage_no_submit _ _ env fs1 w, stage_no_submit _ _ env fs2 w⟩


/-- C4 counterexample: a request that carries
`relative_motion_mode = "absolute"` still yields a workflow whose node
6 parameter is `"relative"`; the parameter is not user-overridable, so
the claim as stated fails. -/
theorem C4_counterexample :
    jobRMM.relative_motion_mode = some "absolute" ∧
    node6rmm (workflowOfInput jobRMM none) = some (JVal.s "relative") ∧
    JVal.s "relative" ≠ JVal.s "absolute" := by
  refine ⟨rfl, rfl, ?_⟩
  intro h
  injection h with h2
  exact absurd h2 (by decide)

/-- C4 (amended): the workflow the handler builds is the fixed
seven-node template in which the only request-derived value is
`driving_multiplier` (defaulting to 1.0 when absent); the LoadImage and
VHS_LoadVideo names are the basenames of the two fixed staging paths,
`relative_motion_mode` is always `"relative"` because the handler never
forwards it, and every other node parameter is a fixed constant. -/
theorem C4_fixed_template (job : JobInput) (audio_path : Option String) :
    workflowOfInput job audio_path =
      liveportraitTemplate (job.driving_multiplier.getD 1) ∧
    basename sourcePath = "source.png" ∧
    basename drivingPath = "driving.mp4" ∧
    node6rmm (workflowOfInput job audio_path) = some (JVal.s "relative") :=
  ⟨workflowOfInput_eq_template job audio_path, rfl, rfl, rfl⟩

/-- C9: any two requests agreeing on the source/driving payload fields
and on `driving_multiplier` submit identical workflows, whatever their
other fields (flags, audio, `relative_motion_mode`, …); and every
submitted workflow carries `relative_motion_mode = "relative"`. -/
theorem C9_workflow_noninterference (ev1 ev2 : Event) (env : Env) (fs : FS)
    (hsrc : (jobOf ev1).source_image = (jobOf ev2).source_image)
    (hsrcu : (jobOf ev1).source_image_url = (jobOf ev2).source_image_url)
    (hdrv : (jobOf ev1).driving_video = (jobOf ev2).driving_video)
    (hdrvu : (jobOf ev1).driving_video_url = (jobOf ev2).driving_video_url)
    (hdm : (jobOf ev1).driving_multiplier = (jobOf ev2).driving_multiplier) :
    (∀ w1 w2, Effect.submit w1 ∈ (handlerT ev1 env fs).2 →
        Effect.submit w2 ∈ (handlerT ev2 env fs).2 → w1 = w2) ∧
    (∀ w, Effect.submit w ∈ (handlerT ev1 env fs).2 →
        node6rmm w = some (JVal.s "relative")) := by
  constructor
  · intro w1 w2 h1 h2
    rw [submit_mem_handlerT ev1 env fs w1 h1, submit_mem_handlerT ev2 env fs w2 h2, hdm]
  · intro w h1
    rw [submit_mem_handlerT ev1 env fs w h1]
    rfl

/-- Witness for C9: two concrete requests differing only in
`relative_motion_mode`. -/
theorem C9_witness :
    (∀ w1 w2, Effect.submit w1 ∈ (handlerT ⟨some jobInline⟩ envEx fs0).2 →
        Effect.submit w2 ∈ (handlerT ⟨some jobRMM⟩ envEx fs0).2 → w1 = w2) ∧
    (∀ w, Effect.submit w ∈ (handlerT ⟨some jobInline⟩ envEx fs0).2 →
        node6rmm w = some (JVal.s "relative")) :=
  C9_workflow_noninterference ⟨some jobInline⟩ ⟨some jobRMM⟩ envEx fs0
    rfl rfl rfl rfl rfl

/-! ## C5: output selection is prioritized patterns + newest by getctime -/

/-- C5 counterexample: among two files matching the first pattern, the
handler picks the one with the newer change time (`os.path.getctime`)
even though its modification time is strictly older, so "selects the
newest matching media file by modification time" fails at this
directory state. -/
theorem C5_counterexample :
    selectOutputFile exListing = some exFileB ∧
    selectSpecMtime exListing = some exFileA ∧
    exFileB.mtime < exFileA.mtime ∧
    exFileA ≠ exFileB :=
  ⟨rfl, rfl, by decide, by decide⟩

/-- C5 (amended): the handler's selection is exactly: the prioritized
match set (first `liveportrait_output*.mp4`, else any `*.mp4` file,
else any file whose extension, case-insensitively, is whitelisted),
and from a non-empty match set the newest file by change time
(`os.path.getctime`), the earliest listed winning ties. -/
theorem C5_selection (listing : List OutFile) :
    selectOutputFile listing = selectSpecCtime listing := by
  unfold selectOutputFile selectSpecCtime newestByCtime claimMatches
  by_cases h1 : (listing.filter (fun f => matchLPmp4 f.name)).isEmpty
  · by_cases h2 : (listing.filter (fun f => matchAnyMp4 f.name)).isEmpty
    · simp only [h1, h2, Bool.not_true, Bool.false_eq_true, if_false, if_true]
      rw [List.filter_filter]
      exact congrArg _ (List.filter_congr (fun x _ => Bool.and_comm _ _))
    · have h2x : (listing.filter (fun f => matchAnyMp4 f.name)).isEmpty = false := by
        rwa [Bool.not_eq_true] at h2
      simp [h1, h2x]
  · have h1x : (listing.filter (fun f => matchLPmp4 f.name)).isEmpty = false := by
      rwa [Bool.not_eq_true] at h1
    simp [h1x]

/-! ## C6: returned payload and the no-output error -/

/-- C6: when the search finds a file the handler returns its bytes
base64-encoded behind the fixed `data:video/mp4;base64,` head (whatever
the file's extension); when no pattern matches it returns an error
string listing the output directory contents, and never raises. -/
theorem C6_output_encoding (listing : List OutFile) :
    (∀ f, selectOutputFile listing = some f →
      finishOutput listing =
        [("video_base64",
          JVal.s ("data:video/mp4;base64," ++ file_to_base64_bytes f.bytes))]) ∧
    (selectOutputFile listing = none →
      finishOutput listing = [("error", JVal.s (noOutputMsg listing))]) := by
  constructor
  · intro f hf
    unfold finishOutput
    rw [hf]
  · intro hf
    unfold finishOutput
    rw [hf]

/-- Witness for C6 at a concrete listing (a `.mov` would get the same
`mp4` head; here the selected file is `exFileB`). -/
theorem C6_witness :
    finishOutput exListing =
      [("video_base64",
        JVal.s ("data:video/mp4;base64," ++ file_to_base64_bytes exFileB.bytes))] :=
  (C6_output_encoding exListing).1 exFileB rfl

/-! ## C7: which media fields are required -/

lemma run_has_submit (wf : JVal) (env : Env) :
    Effect.submit wf ∈ (run_comfyui_workflowT wf env).2 := by
  unfold run_comfyui_workflowT
  by_cases hs : (env.submit wf).status = 200
  · rw [if_neg (not_not_intro hs)]
    cases hp : (env.submit wf).prompt_id with
    | none => simp
    | some pid =>
        by_cases hpe : pid = ""
        · simp [hpe]
        · simp [hpe]
  · rw [if_pos hs]
    simp

lemma afterStaging_has_submit (job : JobInput) (env : Env) (tr : List Effect)
    (audio_path : Option String) :
    Effect.submit (workflowOfInput job audio_path) ∈
      (afterStaging job env tr audio_path).2 := by
  simp only [afterStaging]
  cases hr : (run_comfyui_workflowT (workflowOfInput job audio_path) env).1 with
  | error e =>
      simp only [List.mem_append]
      exact Or.inr (run_has_submit _ env)
  | ok a =>
      simp only [List.append_assoc, List.mem_append]
      exact Or.inr (Or.inl (run_has_submit _ env))

/-- C7 counterexample: the all-absent request is rejected with a
required-field error, with no download, save, or submission at all —
the image and video fields are not optional. -/
theorem C7_counterexample :
    handler evEmpty envEx fs0 =
      [("error", JVal.s "source_image or source_image_url is required")] ∧
    (handlerT evEmpty envEx fs0).2 = [] :=
  ⟨rfl, rfl⟩

/-- C7 (amended): audio alone is optional — an audio-less request that
stages its image and video still reaches submission — while a missing
source image or driving video makes the handler return the
corresponding required-field error instead of processing. -/
theorem C7_required_and_optional (ev : Event) (env : Env) (fs : FS) :
    (getMedia (jobOf ev).source_image (jobOf ev).source_image_url = none →
      handlerT ev env fs =
        ([("error", JVal.s "source_image or source_image_url is required")], [])) ∧
    (getMedia (jobOf ev).driving_video (jobOf ev).driving_video_url = none →
      ∀ sv fs1, getMedia (jobOf ev).source_image (jobOf ev).source_image_url = some sv →
        (stage sv sourcePath env fs).1 = .ok fs1 →
        handler ev env fs =
          [("error", JVal.s "driving_video or driving_video_url is required")]) ∧
    (getMedia (jobOf ev).audio (jobOf ev).audio_url = none →
      ∀ sv dv fs1 fs2,
        getMedia (jobOf ev).source_image (jobOf ev).source_image_url = some sv →
        (stage sv sourcePath env fs).1 = .ok fs1 →
        getMedia (jobOf ev).driving_video (jobOf ev).driving_video_url = some dv →
        (stage dv drivingPath env fs1).1 = .ok fs2 →
        ∃ w, Effect.submit w ∈ (handlerT ev env fs).2) := by
  refine ⟨?_, ?_, ?_⟩
  · intro h0
    simp only [handlerT]
    rw [h0]
  · intro h0 sv fs1 h1 h2
    simp only [handler, handlerT]
    rw [h1]
    simp only []
    rw [h2]
    simp only []
    rw [h0]
  · intro h0 sv dv fs1 fs2 h1 h2 h3 h4
    simp only [handlerT]
    rw [h1]
    simp only []
    rw [h2]
    simp only []
    rw [h3]
    simp only []
    rw [h4]
    simp only []
    rw [h0]
    exact ⟨workflowOfInput (jobOf ev) none, afterStaging_has_submit _ env _ none⟩

/-- Witness for C7 at a concrete audio-less inline request. -/
theorem C7_witness :
    ∃ w, Effect.submit w ∈ (handlerT ⟨some jobInline⟩ envEx fs0).2 :=
  (C7_required_and_optional ⟨some jobInline⟩ envEx fs0).2.2 rfl "QQ==" "QQ=="
    (writeFS fs0 sourcePath [65]) (writeFS (writeFS fs0 sourcePath [65]) drivingPath [65])
    rfl rfl rfl rfl

/-! ## C8: the fixed linear pipeline order -/

lemma stage_trace_cases (v p : String) (env : Env) (fs : FS) :
    (stage v p env fs).2 = [Effect.download v p] ∨
    (stage v p env fs).2 = [Effect.saveB64 p] := by
  unfold stage
  split
  · split
    · exact Or.inl rfl
    · exact Or.inl rfl
  · split
    · exact Or.inr rfl
    · exact Or.inr rfl

lemma stage_kind0 (v p : String) (env : Env) (fs : FS) :
    ∀ e ∈ (stage v p env fs).2, kindIdx e = 0 := by
  rcases stage_trace_cases v p env fs with h | h <;> rw [h] <;> simp [kindIdx]

lemma stage_no_submit2 (v p : String) (env : Env) (fs : FS) :
    ∀ e ∈ (stage v p env fs).2, isSubmit e = false := by
  rcases stage_trace_cases v p env fs with h | h <;> rw [h] <;> simp [isSubmit]

lemma run_trace_shape (wf : JVal) (env : Env) :
    ∃ polls, (run_comfyui_workflowT wf env).2 = Effect.submit wf :: polls ∧
      ∀ e ∈ polls, ∃ u, e = Effect.poll u := by
  unfold run_comfyui_workflowT
  by_cases hs : (env.submit wf).status = 200
  · rw [if_neg (not_not_intro hs)]
    cases hp : (env.submit wf).prompt_id with
    | none => exact ⟨[], rfl, by simp⟩
    | some pid =>
        simp only []
        by_cases hpe : pid = ""
        · rw [if_pos hpe]
          exact ⟨[], rfl, by simp⟩
        · rw [if_neg hpe]
          exact ⟨(pollLoopT env pid 0).2, rfl,
            fun e he => pollLoopT_only_polls env pid 300 0 (by omega) e he⟩
  · rw [if_pos hs]
    exact ⟨[], rfl, by simp⟩

lemma pairwise_le_const (l : List Nat) (k : Nat) (h : ∀ x ∈ l, x = k) :
    l.Pairwise (· ≤ ·) := by
  induction l with
  | nil => exact List.Pairwise.nil
  | cons a t ih =>
      refine List.Pairwise.cons ?_ (ih (fun x hx => h x (by simp [hx])))
      intro y hy
      rw [h a (by simp), h y (by simp [hy])]

lemma countP_zero_of (l : List Effect) (h : ∀ e ∈ l, isSubmit e = false) :
    l.countP isSubmit = 0 := by
  rw [List.countP_eq_zero]
  intro e he
  rw [h e he]
  simp

/-- The three properties C8 needs of a completed trace: stage effects
(kind 0) first, then the single submission, then only polls and the
final output read; expressed as sortedness of the kind indices plus a
submission count. -/
lemma afterStaging_kinds (job : JobInput) (env : Env) (tr : List Effect)
    (audio_path : Option String) (htr : ∀ e ∈ tr, kindIdx e = 0) :
    List.Pairwise (· ≤ ·) ((afterStaging job env tr audio_path).2.map kindIdx) ∧
    (afterStaging job env tr audio_path).2.countP isSubmit = 1 := by
  obtain ⟨polls, hshape, hpolls⟩ := run_trace_shape (workflowOfInput job audio_path) env
  have hpk : ∀ x ∈ polls.map kindIdx, x = 2 := by
    intro x hx
    rw [List.mem_map] at hx
    obtain ⟨e, he, rfl⟩ := hx
    obtain ⟨u, rfl⟩ := hpolls e he
    rfl
  have hpcount : polls.countP isSubmit = 0 := by
    refine countP_zero_of polls (fun e he => ?_)
    obtain ⟨u, rfl⟩ := hpolls e he
    rfl
  have htrk : ∀ x ∈ tr.map kindIdx, x = 0 := by
    intro x hx
    rw [List.mem_map] at hx
    obtain ⟨e, he, rfl⟩ := hx
    exact htr e he
  have htrcount : tr.countP isSubmit = 0 := by
    refine countP_zero_of tr (fun e he => ?_)
    have h0 := htr e he
    cases e <;> simp [isSubmit] <;> simp [kindIdx] at h0
  simp only [afterStaging]
  cases hr : (run_comfyui_workflowT (workflowOfInput job audio_path) env).1 with
  | error e =>
      rw [hshape]
      constructor
      · rw [List.map_append, List.pairwise_append]
        refine ⟨pairwise_le_const _ 0 htrk, ?_, ?_⟩
        · rw [List.map_cons]
          refine List.Pairwise.cons ?_ (pairwise_le_const _ 2 hpk)
          intro y hy
          rw [hpk y hy]
          exact one_le_two
        · intro a ha b hb
          rw [htrk a ha]
          exact Nat.zero_le b
      · rw [List.countP_append, htrcount, List.countP_cons]
        rw [hpcount]
        rfl
  | ok a =>
      rw [hshape, List.append_assoc, List.cons_append]
      constructor
      · rw [List.map_append, List.pairwise_append]
        refine ⟨pairwise_le_const _ 0 htrk, ?_, ?_⟩
        · rw [List.map_cons, List.pairwise_cons]
          constructor
          · intro y hy
            rw [List.map_append, List.mem_append] at hy
            rcases hy with hy | hy
            · rw [hpk y hy]
              exact one_le_two
            · simp only [List.map_cons, List.map_nil, List.mem_singleton] at hy
              rw [hy]
              exact (by decide : (1 : Nat) ≤ 3)
          · rw [List.map_append, List.pairwise_append]
            refine ⟨pairwise_le_const _ 2 hpk, by simp, ?_⟩
            intro a2 ha2 b hb
            rw [hpk a2 ha2]
            simp only [List.map_cons, List.map_nil, List.mem_singleton] at hb
            rw [hb]
            exact (by decide : (2 : Nat) ≤ 3)
        · intro a2 ha2 b hb
          rw [htrk a2 ha2]
          exact Nat.zero_le b
      · rw [List.countP_append, htrcount, List.countP_cons, List.countP_append, hpcount]
        simp [isSubmit]

/-- C8: every run follows the fixed linear order — staging effects,
then at most one engine submission, then polling, then the output read
(the kind indices along the trace are sorted); the engine is submitted
to at most once; and a request missing a required media field performs
no submission at all. -/
theorem C8_pipeline_order (ev : Event) (env : Env) (fs : FS) :
    List.Pairwise (· ≤ ·) ((handlerT ev env fs).2.map kindIdx) ∧
    (handlerT ev env fs).2.countP isSubmit ≤ 1 ∧
    ((getMedia (jobOf ev).source_image (jobOf ev).source_image_url = none ∨
      getMedia (jobOf ev).driving_video (jobOf ev).driving_video_url = none) →
      (handlerT ev env fs).2.countP isSubmit = 0) := by
  simp only [handlerT]
  cases hm1 : getMedia (jobOf ev).source_image (jobOf ev).source_image_url with
  | none => exact ⟨by simp, by simp, fun _ => by simp⟩
  | some sv =>
  simp only []
  have hk1 := stage_kind0 sv sourcePath env fs
  have hc1 := countP_zero_of _ (stage_no_submit2 sv sourcePath env fs)
  cases hs1 : (stage sv sourcePath env fs).1 with
  | error e =>
      simp only []
      refine ⟨?_, ?_, fun _ => ?_⟩
      · exact pairwise_le_const _ 0 (by
          intro x hx
          rw [List.mem_map] at hx
          obtain ⟨e2, he2, rfl⟩ := hx
          exact hk1 e2 he2)
      · rw [hc1]
        omega
      · exact hc1
  | ok fs1 =>
  simp only []
  have hk2all : ∀ e ∈ (stage sv sourcePath env fs).2, kindIdx e = 0 := hk1
  cases hm2 : getMedia (jobOf ev).driving_video (jobOf ev).driving_video_url with
  | none =>
      simp only []
      refine ⟨?_, ?_, fun _ => ?_⟩
      · exact pairwise_le_const _ 0 (by
          intro x hx
          rw [List.mem_map] at hx
          obtain ⟨e2, he2, rfl⟩ := hx
          exact hk1 e2 he2)
      · rw [hc1]
        omega
      · exact hc1
  | some dv =>
  simp only []
  have hk2 := stage_kind0 dv drivingPath env fs1
  have hc2 := countP_zero_of _ (stage_no_submit2 dv drivingPath env fs1)
  have hk12 : ∀ e ∈ (stage sv sourcePath env fs).2 ++ (stage dv drivingPath env fs1).2,
      kindIdx e = 0 := by
    intro e he
    rw [List.mem_append] at he
    rcases he with he | he
    · exact hk1 e he
    · exact hk2 e he
  have hc12 : ((stage sv sourcePath env fs).2 ++ (stage dv drivingPath env fs1).2).countP
      isSubmit = 0 := by
    rw [List.countP_append, hc1, hc2]
  cases hs2 : (stage dv drivingPath env fs1).1 with
  | error e =>
      simp only []
      refine ⟨?_, ?_, fun h => ?_⟩
      · exact pairwise_le_const _ 0 (by
          intro x hx
          rw [List.mem_map] at hx
          obtain ⟨e2, he2, rfl⟩ := hx
          exact hk12 e2 he2)
      · rw [hc12]
        omega
      · exact hc12
  | ok fs2 =>
  simp only []
  have hcontra : ¬ (some sv = none ∨ some dv = none) := by
    rintro (h | h) <;> simp at h
  cases hm3 : getMedia (jobOf ev).audio (jobOf ev).audio_url with
  | none =>
      simp only []
      obtain ⟨hpw, hcnt⟩ := afterStaging_kinds (jobOf ev) env _ none hk12
      exact ⟨hpw, by omega, fun h => absurd h hcontra⟩
  | some au =>
  simp only []
  have hk3 := stage_kind0 au audioPathC env fs2
  have hc3 := countP_zero_of _ (stage_no_submit2 au audioPathC env fs2)
  have hk123 : ∀ e ∈ (stage sv sourcePath env fs).2 ++ (stage dv drivingPath env fs1).2 ++
      (stage au audioPathC env fs2).2, kindIdx e = 0 := by
    intro e he
    rw [List.mem_append] at he
    rcases he with he | he
    · exact hk12 e he
    · exact hk3 e he
  cases hs3 : (stage au audioPathC env fs2).1 with
  | error e =>
      simp only []
      refine ⟨?_, ?_, fun h => absurd h hcontra⟩
      · exact pairwise_le_const _ 0 (by
          intro x hx
          rw [List.mem_map] at hx
          obtain ⟨e2, he2, rfl⟩ := hx
          exact hk123 e2 he2)
      · rw [List.countP_append, hc12, hc3]
        omega
  | ok fs3 =>
      simp only []
      obtain ⟨hpw, hcnt⟩ := afterStaging_kinds (jobOf ev) env _ (some audioPathC) hk123
      exact ⟨hpw, by omega, fun h => absurd h hcontra⟩

/-- Witness for C8 at a concrete rejected request: the empty request
has a sorted (empty) trace with no submission. -/
theorem C8_witness :
    List.Pairwise (· ≤ ·) ((handlerT evEmpty envEx fs0).2.map kindIdx) ∧
    (handlerT evEmpty envEx fs0).2.countP isSubmit ≤ 1 ∧
    ((getMedia (jobOf evEmpty).source_image (jobOf evEmpty).source_image_url = none ∨
      getMedia (jobOf evEmpty).driving_video (jobOf evEmpty).driving_video_url = none) →
      (handlerT evEmpty envEx fs0).2.countP isSubmit = 0) :=
  C8_pipeline_order evEmpty envEx fs0

/-! ## C1: the handler always returns a dictionary -/

lemma finishOutput_shape (listing : List OutFile) :
    (∃ m, finishOutput listing = [("error", JVal.s m)]) ∨
    (∃ s, finishOutput listing = [("video_base64", JVal.s s)]) := by
  unfold finishOutput
  cases selectOutputFile listing with
  | none => exact Or.inl ⟨_, rfl⟩
  | some f => exact Or.inr ⟨_, rfl⟩

lemma afterStaging_shape (job : JobInput) (env : Env) (tr : List Effect)
    (audio_path : Option String) :
    (∃ m, (afterStaging job env tr audio_path).1 = [("error", JVal.s m)]) ∨
    (∃ s, (afterStaging job env tr audio_path).1 = [("video_base64", JVal.s s)]) := by
  simp only [afterStaging]
  cases hr : (run_comfyui_workflowT (workflowOfInput job audio_path) env).1 with
  | error e => exact Or.inl ⟨_, rfl⟩
  | ok a => exact finishOutput_shape env.outputListing

/-- C1: for every request, environment and initial disk state the
handler returns a dictionary — either a `video_base64` success entry or
an `error` entry whose value is a string describing the failure; no
failure path escapes as an exception. -/
theorem C1_total_error_reporting (ev : Event) (env : Env) (fs : FS) :
    (∃ m, handler ev env fs = [("error", JVal.s m)]) ∨
    (∃ s, handler ev env fs = [("video_base64", JVal.s s)]) := by
  simp only [handler, handlerT]
  cases hm1 : getMedia (jobOf ev).source_image (jobOf ev).source_image_url with
  | none => exact Or.inl ⟨_, rfl⟩
  | some sv =>
  simp only []
  cases hs1 : (stage sv sourcePath env fs).1 with
  | error e => exact Or.inl ⟨_, rfl⟩
  | ok fs1 =>
  simp only []
  cases hm2 : getMedia (jobOf ev).driving_video (jobOf ev).driving_video_url with
  | none => exact Or.inl ⟨_, rfl⟩
  | some dv =>
  simp only []
  cases hs2 : (stage dv drivingPath env fs1).1 with
  | error e => exact Or.inl ⟨_, rfl⟩
  | ok fs2 =>
  simp only []
  cases hm3 : getMedia (jobOf ev).audio (jobOf ev).audio_url with
  | none => exact afterStaging_shape (jobOf ev) env _ none
  | some au =>
  simp only []
  cases hs3 : (stage au audioPathC env fs2).1 with
  | error e => exact Or.inl ⟨_, rfl⟩
  | ok fs3 => exact afterStaging_shape (jobOf ev) env _ (some audioPathC)

end LP






